import Mathlib

/-!
# The hub-connection sample `src/cpp/sample/chat.cpp`

A shallow embedding of the sample program: the websocket factory built by
`create_hub_connection`, the handler registered for "Echo", the three completion
callbacks, and `main` as a step function over the state of the main thread
and of the connection library that calls the callbacks.

The hub-connection library itself is an external dependency.  It appears here
only as the environment of `main`: the actions `fire_start`, `fire_invoke`,
`fire_stop` and `deliver` of a schedule are the calls the library makes into the
sample's lambdas, at any moment and with any argument.  What is assumed of it:

* the calls `on`, `start`, `invoke` and `stop` return to `main` without throwing;
* a completion callback is called only after its operation was issued, and a
  handler only under a registered name (each possibly several times; theorems
  that need "at most once" say so with `fires_once`);
* a statement that writes a line to a stream writes it whole.
-/

namespace Chat

/-! ## Values, exceptions, promises -/

/-- The two members of the library's `signalr::value` that the sample uses.  The
header `signalrclient/signalr_value.h` is not part of the sources, so the value
type `V` and these two members are parameters of the development:
`of_string s` is `signalr::value(s)` and `as_string v` is `v.as_string()`, taken
to return a string for every value. -/
structure value_ops (V : Type) where
  of_string : String → V
  as_string : V → String

/-- The value operations in which a value is the string it wraps. -/
def string_value_ops : value_ops String :=
  { of_string := fun s => s, as_string := fun s => s }

/-- The object a non-null `std::exception_ptr` points to: whether its type derives
from `std::exception` (what `catch (const std::exception& e)` looks at) and
the text of `what()`. -/
structure Exn where
  derives_std_exception : Bool
  what : String
deriving DecidableEq, Repr

/-- A `std::exception_ptr`: `none` is the null pointer. -/
abbrev exception_ptr := Option Exn

/-- The shared state of a `std::promise<void>`. -/
inductive PromiseState where
  | unset
  | hasValue
  | hasException (e : Exn)
deriving DecidableEq, Repr

/-- The error `std::promise::set_value` throws when the shared state already
holds a value or an exception. -/
inductive future_error where
  | promise_already_satisfied
deriving DecidableEq, Repr

/-- The call `std::promise<void>::set_value()`: a promise is fulfilled at most once. -/
def set_value : PromiseState → Except future_error PromiseState
  | .unset => .ok .hasValue
  | .hasValue => .error .promise_already_satisfied
  | .hasException _ => .error .promise_already_satisfied

/-! ## The websocket factory of `create_hub_connection` -/

/-- The state of the websocket-client objects, indexed by object identity: a
`std::shared_ptr<test_websocket_client>` is the identity of the object it points to. -/
abbrev Store (C : Type) := Nat → C

/-- The type of a websocket factory: called with a configuration, it returns a
shared pointer to a websocket client and may change the state of the clients. -/
abbrev websocket_factory (C Cfg : Type) := Cfg → Store C → Nat × Store C

/-- The call `websocket_client->set_config(config)` on the object `p`.  The
member function `test_websocket_client::set_config` is declared in
`signalrclienttests/test_websocket_client.h`, which is not part of the sources;
its effect on one client object is the parameter `set_config`. -/
def call_set_config {C Cfg : Type} (set_config : C → Cfg → C)
    (p : Nat) (config : Cfg) (st : Store C) : Store C :=
  fun q => if q = p then set_config (st p) config else st q

/-- Modelled from the spec: the library's `hub_connection_builder`
("construct-with-configuration") is absent.  The builder records the url it was
created with and the websocket factory it was given. -/
structure hub_connection_builder (C Cfg : Type) where
  url : String
  factory : Option (websocket_factory C Cfg)

/-- Modelled from the spec: the library's `hub_connection` is absent.  A
connection built by the builder carries the builder's url and factory. -/
structure hub_connection (C Cfg : Type) where
  url : String
  factory : Option (websocket_factory C Cfg)

/-- Modelled from the spec: `hub_connection_builder::create(url)`. -/
def hub_connection_builder.create {C Cfg : Type} (url : String) :
    hub_connection_builder C Cfg :=
  { url := url, factory := none }

/-- Modelled from the spec: `hub_connection_builder::with_websocket_factory`. -/
def hub_connection_builder.with_websocket_factory {C Cfg : Type}
    (b : hub_connection_builder C Cfg) (f : websocket_factory C Cfg) :
    hub_connection_builder C Cfg :=
  { b with factory := some f }

/-- Modelled from the spec: `hub_connection_builder::build()`. -/
def hub_connection_builder.build {C Cfg : Type} (b : hub_connection_builder C Cfg) :
    hub_connection C Cfg :=
  { url := b.url, factory := b.factory }

/-- The lambda of `create_hub_connection` (lines 21-25): it captures the shared
pointer `websocket_client` by value, calls `set_config` on the object and
returns the captured pointer. -/
def factory_lambda {C Cfg : Type} (set_config : C → Cfg → C) (websocket_client : Nat) :
    websocket_factory C Cfg :=
  fun config st => (websocket_client, call_set_config set_config websocket_client config st)

/-- The function `create_hub_connection` (lines 13-27). -/
def create_hub_connection {C Cfg : Type} (set_config : C → Cfg → C)
    (websocket_client : Nat) : hub_connection C Cfg :=
  (hub_connection_builder.with_websocket_factory
    (hub_connection_builder.create "http://localhost:8080/test")
    (factory_lambda set_config websocket_client)).build

/-! ## The handler registered for "Echo" -/

/-- What one call of a handler did: the indices of the argument vector it read
and the lines it wrote to standard output. -/
structure HandlerEffect where
  indexed : List Nat
  stdout : List String
deriving DecidableEq, Repr

/-- An access `m[i]` outside the bounds of the vector. -/
inductive vector_fault where
  | out_of_range (i : Nat)
deriving DecidableEq, Repr

/-- The lambda passed to `connection.on("Echo", ...)` (lines 37-43). -/
def echo_handler {V : Type} (ops : value_ops V) (m : List V) :
    Except vector_fault HandlerEffect :=
  if !m.isEmpty then
    match m[0]? with
    | some v => .ok { indexed := [0], stdout := ["Received: " ++ ops.as_string v] }
    | none => .error (.out_of_range 0)
  else
    .ok { indexed := [], stdout := [] }

/-! ## The state of a run -/

/-- The statement the main thread executes next. -/
inductive Pc where
  | at_create
  | at_on
  | at_start
  | wait_start
  | at_invoke
  | wait_send
  | at_stop
  | wait_stop
  | returned (code : Nat)
  | terminated
deriving DecidableEq, Repr

/-- The calls between `main` and the connection, in the order they happen. -/
inductive Event (V : Type) where
  | on_issued (name : String)
  | start_issued
  | start_completed (exception : exception_ptr)
  | invoke_issued (name : String) (args : List V)
  | invoke_completed (value : V) (exception : exception_ptr)
  | stop_issued
  | stop_completed (exception : exception_ptr)
  | handler_called (name : String) (m : List V)
deriving DecidableEq, Repr

/-- The state of the process: the main thread's position, the three promises,
what the library holds (registered handler names and completion callbacks),
whether an exception escaped a lambda into the library, the two output streams
(as lines) and the sequence of events so far.  The promises `send_task` and
`stop_task` are declared later in `main` than `start_task`; they are part of the
state from the start, unset, since nothing can reach them before their
declaration. -/
structure State (V : Type) where
  pc : Pc
  start_task : PromiseState
  send_task : PromiseState
  stop_task : PromiseState
  handlers : List String
  start_cb : Bool
  invoke_cb : Bool
  stop_cb : Bool
  fault : Bool
  out : List String
  err : List String
  trace : List (Event V)

/-- The state in which `main` is entered. -/
def init (V : Type) : State V :=
  { pc := .at_create, start_task := .unset, send_task := .unset, stop_task := .unset,
    handlers := [], start_cb := false, invoke_cb := false, stop_cb := false,
    fault := false, out := [], err := [], trace := [] }

/-! ## The completion callbacks -/

/-- The lambda passed to `connection.start` (lines 46-53). -/
def start_callback {V : Type} (exception : exception_ptr) (s : State V) : State V :=
  let s1 := if exception.isSome then
      { s with err := s.err ++ ["Connection failed to start."] } else s
  match set_value s1.start_task with
  | .ok p => { s1 with start_task := p }
  | .error _ => { s1 with fault := true }

/-- The lambda passed to `connection.invoke` (lines 72-79); the result value is
not used. -/
def invoke_callback {V : Type} (_value : V) (exception : exception_ptr) (s : State V) :
    State V :=
  let s1 := if exception.isSome then
      { s with err := s.err ++ ["Invoke failed."] } else s
  match set_value s1.send_task with
  | .ok p => { s1 with send_task := p }
  | .error _ => { s1 with fault := true }

/-- The lambda passed to `connection.stop` (lines 87-94). -/
def stop_callback {V : Type} (exception : exception_ptr) (s : State V) : State V :=
  let s1 := if exception.isSome then
      { s with err := s.err ++ ["Stop failed."] } else s
  match set_value s1.stop_task with
  | .ok p => { s1 with stop_task := p }
  | .error _ => { s1 with fault := true }

/-! ## The main thread -/

/-- Appends one event to the trace. -/
def State.log {V : Type} (s : State V) (ev : Event V) : State V :=
  { s with trace := s.trace ++ [ev] }

/-- One statement of `main` (lines 30-101).  `none`: the thread cannot move, either
because it is blocked in `get()` on a promise that is not fulfilled yet or
because `main` is over.  A `get()` on a promise holding an exception rethrows
it: around `start_task` the `catch` prints and returns 1 when the exception
derives from `std::exception`; everywhere else the exception leaves `main`. -/
def main_step {V : Type} (ops : value_ops V) (s : State V) : Option (State V) :=
  match s.pc with
  | .at_create => some { s with pc := .at_on }
  | .at_on =>
      some ({ s with pc := .at_start, handlers := "Echo" :: s.handlers }.log (.on_issued "Echo"))
  | .at_start =>
      some ({ s with pc := .wait_start, start_cb := true }.log .start_issued)
  | .wait_start =>
      match s.start_task with
      | .unset => none
      | .hasValue =>
          some { s with pc := .at_invoke, out := s.out ++ ["Connection established."] }
      | .hasException e =>
          if e.derives_std_exception then
            some { s with pc := .returned 1,
                          err := s.err ++ ["Fatal error during connection start: " ++ e.what] }
          else some { s with pc := .terminated }
  | .at_invoke =>
      some ({ s with pc := .wait_send, invoke_cb := true }.log
        (.invoke_issued "Echo" [ops.of_string "Hello world"]))
  | .wait_send =>
      match s.send_task with
      | .unset => none
      | .hasValue => some { s with pc := .at_stop }
      | .hasException _ => some { s with pc := .terminated }
  | .at_stop =>
      some ({ s with pc := .wait_stop, stop_cb := true }.log .stop_issued)
  | .wait_stop =>
      match s.stop_task with
      | .unset => none
      | .hasValue =>
          some { s with pc := .returned 0,
                        out := s.out ++ ["Connection stopped successfully."] }
      | .hasException _ => some { s with pc := .terminated }
  | .returned _ => none
  | .terminated => none

/-! ## Runs -/

/-- Whether the process is still running: `main` has neither returned nor been
left by an exception. -/
def Pc.running : Pc → Bool
  | .returned _ => false
  | .terminated => false
  | _ => true

/-- One step of a run: a statement of the main thread, or a call from the library
into one of the sample's lambdas. -/
inductive Action (V : Type) where
  | main
  | fire_start (exception : exception_ptr)
  | fire_invoke (value : V) (exception : exception_ptr)
  | fire_stop (exception : exception_ptr)
  | deliver (name : String) (m : List V)
deriving DecidableEq, Repr

/-- The call of the handler registered under `name` with arguments `m`; the only
handler the sample registers is `echo_handler`. -/
def run_handler {V : Type} (ops : value_ops V) (name : String) (m : List V) (s : State V) :
    State V :=
  match echo_handler ops m with
  | .ok r => { s with out := s.out ++ r.stdout }.log (.handler_called name m)
  | .error _ => { s with fault := true }.log (.handler_called name m)

/-- One step of the process.  The library can call a completion callback only after
the operation was issued, and a handler only under a name that was registered.
Nothing happens once the process has ended, and the model does not follow a run
after an exception has escaped a lambda into the library (`fault`). -/
def step {V : Type} (ops : value_ops V) (s : State V) : Action V → Option (State V)
  | .main => if s.fault then none else main_step ops s
  | .fire_start e =>
      if s.pc.running && !s.fault && s.start_cb then
        some ((start_callback e s).log (.start_completed e)) else none
  | .fire_invoke v e =>
      if s.pc.running && !s.fault && s.invoke_cb then
        some ((invoke_callback v e s).log (.invoke_completed v e)) else none
  | .fire_stop e =>
      if s.pc.running && !s.fault && s.stop_cb then
        some ((stop_callback e s).log (.stop_completed e)) else none
  | .deliver name m =>
      if s.pc.running && !s.fault && decide (name ∈ s.handlers) then
        some (run_handler ops name m s) else none

/-- A run from state `s` under a schedule; an action that is not possible in the
current state is skipped. -/
def exec {V : Type} (ops : value_ops V) (s : State V) (sched : List (Action V)) : State V :=
  sched.foldl (fun s a => (step ops s a).getD s) s

/-- The run of `main` from its entry under a schedule. -/
def run {V : Type} (ops : value_ops V) (sched : List (Action V)) : State V :=
  exec ops (init V) sched

/-! ## Properties of traces -/

/-- The event registers a handler under `name`. -/
def Event.is_on_issued {V : Type} (name : String) : Event V → Bool
  | .on_issued n => n == name
  | _ => false

/-- The event registers a handler, under any name. -/
def Event.is_on {V : Type} : Event V → Bool
  | .on_issued _ => true
  | _ => false

/-- The event is the call of `connection.start`. -/
def Event.is_start_issued {V : Type} : Event V → Bool
  | .start_issued => true
  | _ => false

/-- The event is a call of `connection.invoke`. -/
def Event.is_invoke_issued {V : Type} : Event V → Bool
  | .invoke_issued _ _ => true
  | _ => false

/-- The event is the call of `connection.stop`. -/
def Event.is_stop_issued {V : Type} : Event V → Bool
  | .stop_issued => true
  | _ => false

/-- The event is a call of start's completion callback. -/
def Event.is_start_completed {V : Type} : Event V → Bool
  | .start_completed _ => true
  | _ => false

/-- The event is a call of invoke's completion callback. -/
def Event.is_invoke_completed {V : Type} : Event V → Bool
  | .invoke_completed _ _ => true
  | _ => false

/-- The event is a call of stop's completion callback. -/
def Event.is_stop_completed {V : Type} : Event V → Bool
  | .stop_completed _ => true
  | _ => false

/-- The event is a call of a registered handler. -/
def Event.is_handler_called {V : Type} : Event V → Bool
  | .handler_called _ _ => true
  | _ => false

/-- The event is an operation that `main` issues on the connection: `on`, `start`,
`invoke` or `stop`. -/
def Event.is_issue {V : Type} : Event V → Bool
  | .on_issued _ => true
  | .start_issued => true
  | .invoke_issued _ _ => true
  | .stop_issued => true
  | _ => false

/-- The event is a completion callback called with a non-null exception. -/
def Event.is_failure {V : Type} : Event V → Bool
  | .start_completed e => e.isSome
  | .invoke_completed _ e => e.isSome
  | .stop_completed e => e.isSome
  | _ => false

/-- The event is invoke's completion callback called with a non-null exception. -/
def Event.is_invoke_failure {V : Type} : Event V → Bool
  | .invoke_completed _ e => e.isSome
  | _ => false

/-- The event is start's completion callback called with a non-null exception. -/
def Event.is_start_failure {V : Type} : Event V → Bool
  | .start_completed e => e.isSome
  | _ => false

/-- Every event of the trace that satisfies `q` has an event before it that
satisfies `p`. -/
def precedes {V : Type} (p q : Event V → Bool) (t : List (Event V)) : Prop :=
  ∀ pre x post, t = pre ++ x :: post → q x = true → ∃ y ∈ pre, p y = true

/-- Every event of the trace that comes after an event satisfying `p` satisfies `r`. -/
def only_after {V : Type} (p r : Event V → Bool) (t : List (Event V)) : Prop :=
  ∀ pre x post, t = pre ++ x :: post → p x = true → ∀ y ∈ post, r y = true

/-- In the trace each of the three completion callbacks is called at most once. -/
def fires_once {V : Type} (t : List (Event V)) : Prop :=
  t.countP Event.is_start_completed ≤ 1 ∧ t.countP Event.is_invoke_completed ≤ 1 ∧
    t.countP Event.is_stop_completed ≤ 1

instance {V : Type} (t : List (Event V)) : Decidable (fires_once t) := by
  unfold fires_once
  infer_instance

/-- The line a completion callback writes to standard error when it is called as
the event says. -/
def err_line {V : Type} : Event V → Option String
  | .start_completed (some _) => some "Connection failed to start."
  | .invoke_completed _ (some _) => some "Invoke failed."
  | .stop_completed (some _) => some "Stop failed."
  | _ => none

/-! ## The invariant of runs -/

/-- How far `main` has come. -/
def Pc.rank : Pc → Nat
  | .at_create => 0
  | .at_on => 1
  | .at_start => 2
  | .wait_start => 3
  | .at_invoke => 4
  | .wait_send => 5
  | .at_stop => 6
  | .wait_stop => 7
  | .returned _ => 8
  | .terminated => 9

/-- The operations `main` has issued when it is at `pc`. -/
def issued_at {V : Type} (ops : value_ops V) (pc : Pc) : List (Event V) :=
  (if 2 ≤ pc.rank then [Event.on_issued "Echo"] else []) ++
  (if 3 ≤ pc.rank then [Event.start_issued] else []) ++
  (if 5 ≤ pc.rank then [Event.invoke_issued "Echo" [ops.of_string "Hello world"]] else []) ++
  (if 7 ≤ pc.rank then [Event.stop_issued] else [])

/-- The lines `main` itself has written to standard output when it is at `pc`. -/
def main_out (pc : Pc) : List String :=
  (if 4 ≤ pc.rank then ["Connection established."] else []) ++
  (if 8 ≤ pc.rank then ["Connection stopped successfully."] else [])

/-- The state of a promise whose callback has been called `n` times. -/
def promise_after (n : Nat) : PromiseState :=
  if 0 < n then .hasValue else .unset

/-- What holds in every state of every run. -/
structure Inv {V : Type} (ops : value_ops V) (s : State V) : Prop where
  pc_ok : s.pc.rank ≤ 8 ∧ ∀ c, s.pc = .returned c → c = 0
  issued : s.trace.filter Event.is_issue = issued_at ops s.pc
  handlers : s.handlers = if 2 ≤ s.pc.rank then ["Echo"] else []
  start_cb : s.start_cb = decide (3 ≤ s.pc.rank)
  invoke_cb : s.invoke_cb = decide (5 ≤ s.pc.rank)
  stop_cb : s.stop_cb = decide (7 ≤ s.pc.rank)
  start_task : s.start_task = promise_after (s.trace.countP Event.is_start_completed)
  send_task : s.send_task = promise_after (s.trace.countP Event.is_invoke_completed)
  stop_task : s.stop_task = promise_after (s.trace.countP Event.is_stop_completed)
  start_done : 0 < s.trace.countP Event.is_start_completed → 3 ≤ s.pc.rank
  invoke_done : 0 < s.trace.countP Event.is_invoke_completed → 5 ≤ s.pc.rank
  stop_done : 0 < s.trace.countP Event.is_stop_completed → 7 ≤ s.pc.rank
  past_on : 2 ≤ s.pc.rank → 0 < s.trace.countP (Event.is_on_issued "Echo")
  past_start : 4 ≤ s.pc.rank → 0 < s.trace.countP Event.is_start_completed
  past_send : 6 ≤ s.pc.rank → 0 < s.trace.countP Event.is_invoke_completed
  past_stop : 8 ≤ s.pc.rank → 0 < s.trace.countP Event.is_stop_completed
  on_before_start : precedes (Event.is_on_issued "Echo") Event.is_start_issued s.trace
  start_before_invoke : precedes Event.is_start_completed Event.is_invoke_issued s.trace
  invoke_before_stop : precedes Event.is_invoke_completed Event.is_stop_issued s.trace
  after_invoke : only_after Event.is_invoke_completed
    (fun ev => !ev.is_issue || ev.is_stop_issued) s.trace
  fault : s.fault = true → ¬ fires_once s.trace
  err : s.err = s.trace.filterMap err_line
  out_quiet : s.trace.countP Event.is_handler_called = 0 → s.out = main_out s.pc
  out_last : s.pc = .returned 0 → s.out.getLast? = some "Connection stopped successfully."

/-! ## Concrete inputs -/

/-- A test client that consists of its configuration, a number. -/
def set_number (_client : Nat) (config : Nat) : Nat := config

/-- The run in which every operation completes without error and `main` has just
issued `invoke`. -/
def sched_to_invoke : List (Action String) :=
  [.main, .main, .main, .fire_start none, .main, .main]

/-- An exception object derived from `std::exception`. -/
def refused : Exn := { derives_std_exception := true, what := "connection refused" }

/-- The run in which `start`, `invoke` (with the result "Hello world") and `stop`
complete with a null exception and no handler is called, up to the call of the
callback of `stop`. -/
def sched_stop_just_completed : List (Action String) :=
  [.main, .main, .main, .fire_start none, .main, .main, .fire_invoke "Hello world" none, .main,
   .main, .fire_stop none]

/-- The run in which `start` completes without error and the completion callbacks
of `invoke` and of `stop` are called with a non-null exception, up to the call of
the callback of `stop`. -/
def sched_stop_just_failed : List (Action String) :=
  [.main, .main, .main, .fire_start none, .main, .main, .fire_invoke "" (some refused), .main,
   .main, .fire_stop (some refused)]

/-- The run in which the completion callback of `start` is called with a non-null
exception, every later operation completes without error, and `main` runs to
its end. -/
def sched_start_fails : List (Action String) :=
  [.main, .main, .main, .fire_start (some refused), .main, .main, .fire_invoke "" none, .main,
   .main, .fire_stop none, .main]

/-- The run in which `start` completes without error, the completion callback of
`invoke` is called with a non-null exception, and `main` takes two more steps. -/
def sched_invoke_fails : List (Action String) :=
  [.main, .main, .main, .fire_start none, .main, .main, .fire_invoke "" (some refused), .main,
   .main]

/-- The run up to the call of the completion callback of `invoke` with a non-null
exception, `start` having completed without error. -/
def sched_invoke_just_failed : List (Action String) :=
  [.main, .main, .main, .fire_start none, .main, .main, .fire_invoke "" (some refused)]

/-- The run in which `start` completes without error, the completion callbacks of
`invoke` and of `stop` are called with a non-null exception, and `main` runs to
its end. -/
def sched_invoke_stop_fail : List (Action String) :=
  [.main, .main, .main, .fire_start none, .main, .main, .fire_invoke "" (some refused), .main,
   .main, .fire_stop (some refused), .main]

/-! ## Lemmas on traces -/

variable {V : Type}

theorem precedes_nil (p q : Event V → Bool) : precedes p q [] := by
  intro pre x post h
  simp at h

/-- Appending an event keeps `precedes` when the event, if it satisfies `q`, comes
after an event satisfying `p`. -/
theorem precedes_concat {p q : Event V → Bool} {t : List (Event V)} {ev : Event V}
    (h : precedes p q t) (hev : q ev = true → 0 < t.countP p) :
    precedes p q (t ++ [ev]) := by
  intro pre x post heq hq
  rcases List.eq_nil_or_concat post with rfl | ⟨L, b, rfl⟩
  · obtain ⟨h1, h2⟩ := List.append_inj' heq rfl
    simp at h2
    subst h1 h2
    exact List.countP_pos_iff.mp (hev hq)
  · have h3 : t ++ [ev] = (pre ++ x :: L) ++ [b] := by simpa using heq
    obtain ⟨h1, _⟩ := List.append_inj' h3 rfl
    exact h pre x L h1 hq

theorem only_after_nil (p r : Event V → Bool) : only_after p r [] := by
  intro pre x post h
  simp at h

/-- Appending an event keeps `only_after` when the event satisfies `r` in case an
event satisfying `p` came before. -/
theorem only_after_concat {p r : Event V → Bool} {t : List (Event V)} {ev : Event V}
    (h : only_after p r t) (hev : 0 < t.countP p → r ev = true) :
    only_after p r (t ++ [ev]) := by
  intro pre x post heq hp y hy
  rcases List.eq_nil_or_concat post with rfl | ⟨L, b, rfl⟩
  · simp at hy
  · have h3 : t ++ [ev] = (pre ++ x :: L) ++ [b] := by simpa using heq
    obtain ⟨h1, h2⟩ := List.append_inj' h3 rfl
    simp at h2
    subst h2
    simp at hy
    rcases hy with hy | hy
    · exact h pre x L h1 hp y hy
    · subst hy
      apply hev
      rw [h1]
      exact List.countP_pos_iff.mpr ⟨x, by simp, hp⟩

/-! ## The invariant holds in every run -/

theorem countP_concat (p : Event V → Bool) (t : List (Event V)) (ev : Event V) :
    (t ++ [ev]).countP p = t.countP p + (if p ev = true then 1 else 0) := by
  simp [List.countP_append, List.countP_cons]

theorem promise_after_unset {n : Nat} : PromiseState.unset = promise_after n ↔ n = 0 := by
  unfold promise_after; split <;> simp <;> omega

theorem promise_after_value {n : Nat} : PromiseState.hasValue = promise_after n ↔ 0 < n := by
  unfold promise_after; split <;> simp <;> omega

theorem promise_after_exc {n : Nat} {e : Exn} : PromiseState.hasException e ≠ promise_after n := by
  unfold promise_after; split <;> simp

set_option maxHeartbeats 4000000 in
/-- A statement of `main` keeps the invariant. -/
theorem main_step_inv (ops : value_ops V) {s s' : State V} (h : Inv ops s)
    (hs : main_step ops s = some s') : Inv ops s' := by
  obtain ⟨pc, st, se, sp, hd, scb, icb, pcb, fl, out, err, tr⟩ := s
  obtain ⟨h1, h2, h3, h4, h5, h6, h7, h8, h9, h10, h11, h12, h24, h13, h14, h15, h16, h17, h18,
    h19, h20, h21, h22, h23⟩ := h
  simp only at h1 h2 h3 h4 h5 h6 h7 h8 h9 h10 h11 h12 h13 h14 h15 h16 h17 h18 h19 h20 h21 h22 h23 h24
  cases pc <;> simp only [main_step, State.log] at hs
  all_goals try split at hs
  all_goals try split at hs
  all_goals simp only [Option.some.injEq, reduceCtorEq] at hs
  all_goals try (exact absurd h7 promise_after_exc)
  all_goals try (exact absurd h8 promise_after_exc)
  all_goals try (exact absurd h9 promise_after_exc)
  all_goals subst hs
  all_goals try simp only [promise_after_value] at h7 h8 h9
  all_goals simp only [Pc.rank] at h1 h10 h11 h12 h13 h14 h15 h24
  all_goals constructor
  all_goals simp only []
  all_goals try assumption
  all_goals try simp only [countP_concat, Event.is_start_completed, Event.is_invoke_completed,
    Event.is_stop_completed, Event.is_handler_called, Event.is_on_issued, Bool.false_eq_true,
    if_false, if_true, beq_self_eq_true, Nat.add_zero, Pc.rank, promise_after_value]
  all_goals try assumption
  all_goals try omega
  all_goals try (simp [Pc.rank, issued_at, main_out, Event.is_issue, err_line, *]; done)
  all_goals try (apply precedes_concat ‹_›; simp only [Event.is_start_issued, Event.is_invoke_issued, Event.is_stop_issued, Event.is_on_issued]; first | (intro hc; cases hc; done) | (intro _; omega))
  all_goals try (apply only_after_concat ‹_›; simp only [Event.is_issue, Event.is_stop_issued]; first | (intro _; rfl) | (intro _; omega))
  all_goals try (intro hf; have hf2 := h20 hf; simp only [fires_once, countP_concat, Event.is_start_completed, Event.is_invoke_completed, Event.is_stop_completed, Bool.false_eq_true, if_false, if_true, Nat.add_zero] at hf2 ⊢; exact hf2)
  all_goals try (intro hq; simp [h22 hq, main_out, Pc.rank]; done)

/-- The handler returns normally on every argument list. -/
theorem echo_handler_ok (ops : value_ops V) (m : List V) :
    ∃ r, echo_handler ops m = .ok r := by
  cases m <;> simp [echo_handler]

set_option maxHeartbeats 4000000 in
/-- A call of the completion callback of `start` keeps the invariant. -/
theorem fire_start_inv (ops : value_ops V) {s s' : State V} (e : exception_ptr) (h : Inv ops s)
    (hs : step ops s (.fire_start e) = some s') : Inv ops s' := by
  obtain ⟨pc, st, se, sp, hd, scb, icb, pcb, fl, out, err, tr⟩ := s
  obtain ⟨h1, h2, h3, h4, h5, h6, h7, h8, h9, h10, h11, h12, h24, h13, h14, h15, h16, h17, h18,
    h19, h20, h21, h22, h23⟩ := h
  simp only at h1 h2 h3 h4 h5 h6 h7 h8 h9 h10 h11 h12 h13 h14 h15 h16 h17 h18 h19 h20 h21 h22 h23 h24
  simp only [step] at hs
  split at hs
  case isFalse => simp at hs
  rename_i hc
  simp only [Bool.and_eq_true, Bool.not_eq_true', decide_eq_true_eq] at hc
  obtain ⟨⟨hrun, hfl⟩, hcb⟩ := hc
  subst hfl hcb
  simp only [Option.some.injEq] at hs
  cases e <;> cases st <;>
    simp only [start_callback, set_value, State.log, Option.isSome_none, Option.isSome_some,
      Bool.false_eq_true, if_false, if_true] at hs
  all_goals try (exact absurd h7 promise_after_exc)
  all_goals subst hs
  all_goals simp only [promise_after_value, promise_after_unset] at h7
  all_goals have h4b : 3 ≤ pc.rank := by simpa using h4.symm
  all_goals constructor
  all_goals simp only []
  all_goals try assumption
  all_goals try simp only [countP_concat, Event.is_start_completed, Event.is_invoke_completed,
    Event.is_stop_completed, Event.is_handler_called, Event.is_on_issued, Bool.false_eq_true,
    if_false, if_true, beq_self_eq_true, Nat.add_zero, promise_after_value]
  all_goals try assumption
  all_goals try omega
  all_goals try (simp [List.filter_append, Event.is_issue, h2]; done)
  all_goals try (simp [List.filterMap_append, err_line, h21]; done)
  all_goals try (apply precedes_concat ‹_›; simp only [Event.is_start_issued, Event.is_invoke_issued, Event.is_stop_issued, Event.is_on_issued]; intro hc; cases hc; done)
  all_goals try (apply only_after_concat ‹_›; simp only [Event.is_issue, Event.is_stop_issued]; intro _; rfl)
  all_goals try (intro hf; simp only [fires_once, countP_concat, Event.is_start_completed, Event.is_invoke_completed, Event.is_stop_completed, Bool.false_eq_true, if_false, if_true, Nat.add_zero]; omega)

set_option maxHeartbeats 4000000 in
/-- A call of the completion callback of `invoke` keeps the invariant. -/
theorem fire_invoke_inv (ops : value_ops V) {s s' : State V} (v : V) (e : exception_ptr)
    (h : Inv ops s)
    (hs : step ops s (.fire_invoke v e) = some s') : Inv ops s' := by
  obtain ⟨pc, st, se, sp, hd, scb, icb, pcb, fl, out, err, tr⟩ := s
  obtain ⟨h1, h2, h3, h4, h5, h6, h7, h8, h9, h10, h11, h12, h24, h13, h14, h15, h16, h17, h18,
    h19, h20, h21, h22, h23⟩ := h
  simp only at h1 h2 h3 h4 h5 h6 h7 h8 h9 h10 h11 h12 h13 h14 h15 h16 h17 h18 h19 h20 h21 h22 h23 h24
  simp only [step] at hs
  split at hs
  case isFalse => simp at hs
  rename_i hc
  simp only [Bool.and_eq_true, Bool.not_eq_true', decide_eq_true_eq] at hc
  obtain ⟨⟨hrun, hfl⟩, hcb⟩ := hc
  subst hfl hcb
  simp only [Option.some.injEq] at hs
  cases e <;> cases se <;>
    simp only [invoke_callback, set_value, State.log, Option.isSome_none, Option.isSome_some,
      Bool.false_eq_true, if_false, if_true] at hs
  all_goals try (exact absurd h8 promise_after_exc)
  all_goals subst hs
  all_goals simp only [promise_after_value, promise_after_unset] at h8
  all_goals have h4b : 5 ≤ pc.rank := by simpa using h5.symm
  all_goals constructor
  all_goals simp only []
  all_goals try assumption
  all_goals try simp only [countP_concat, Event.is_start_completed, Event.is_invoke_completed,
    Event.is_stop_completed, Event.is_handler_called, Event.is_on_issued, Bool.false_eq_true,
    if_false, if_true, beq_self_eq_true, Nat.add_zero, promise_after_value]
  all_goals try assumption
  all_goals try omega
  all_goals try (simp [List.filter_append, Event.is_issue, h2]; done)
  all_goals try (simp [List.filterMap_append, err_line, h21]; done)
  all_goals try (apply precedes_concat ‹_›; simp only [Event.is_start_issued, Event.is_invoke_issued, Event.is_stop_issued, Event.is_on_issued]; intro hc; cases hc; done)
  all_goals try (apply only_after_concat ‹_›; simp only [Event.is_issue, Event.is_stop_issued]; intro _; rfl)
  all_goals try (intro hf; simp only [fires_once, countP_concat, Event.is_start_completed, Event.is_invoke_completed, Event.is_stop_completed, Bool.false_eq_true, if_false, if_true, Nat.add_zero]; omega)

set_option maxHeartbeats 4000000 in
/-- A call of the completion callback of `stop` keeps the invariant. -/
theorem fire_stop_inv (ops : value_ops V) {s s' : State V} (e : exception_ptr) (h : Inv ops s)
    (hs : step ops s (.fire_stop e) = some s') : Inv ops s' := by
  obtain ⟨pc, st, se, sp, hd, scb, icb, pcb, fl, out, err, tr⟩ := s
  obtain ⟨h1, h2, h3, h4, h5, h6, h7, h8, h9, h10, h11, h12, h24, h13, h14, h15, h16, h17, h18,
    h19, h20, h21, h22, h23⟩ := h
  simp only at h1 h2 h3 h4 h5 h6 h7 h8 h9 h10 h11 h12 h13 h14 h15 h16 h17 h18 h19 h20 h21 h22 h23 h24
  simp only [step] at hs
  split at hs
  case isFalse => simp at hs
  rename_i hc
  simp only [Bool.and_eq_true, Bool.not_eq_true', decide_eq_true_eq] at hc
  obtain ⟨⟨hrun, hfl⟩, hcb⟩ := hc
  subst hfl hcb
  simp only [Option.some.injEq] at hs
  cases e <;> cases sp <;>
    simp only [stop_callback, set_value, State.log, Option.isSome_none, Option.isSome_some,
      Bool.false_eq_true, if_false, if_true] at hs
  all_goals try (exact absurd h9 promise_after_exc)
  all_goals subst hs
  all_goals simp only [promise_after_value, promise_after_unset] at h9
  all_goals have h4b : 7 ≤ pc.rank := by simpa using h6.symm
  all_goals constructor
  all_goals simp only []
  all_goals try assumption
  all_goals try simp only [countP_concat, Event.is_start_completed, Event.is_invoke_completed,
    Event.is_stop_completed, Event.is_handler_called, Event.is_on_issued, Bool.false_eq_true,
    if_false, if_true, beq_self_eq_true, Nat.add_zero, promise_after_value]
  all_goals try assumption
  all_goals try omega
  all_goals try (simp [List.filter_append, Event.is_issue, h2]; done)
  all_goals try (simp [List.filterMap_append, err_line, h21]; done)
  all_goals try (apply precedes_concat ‹_›; simp only [Event.is_start_issued, Event.is_invoke_issued, Event.is_stop_issued, Event.is_on_issued]; intro hc; cases hc; done)
  all_goals try (apply only_after_concat ‹_›; simp only [Event.is_issue, Event.is_stop_issued]; intro _; rfl)
  all_goals try (intro hf; simp only [fires_once, countP_concat, Event.is_start_completed, Event.is_invoke_completed, Event.is_stop_completed, Bool.false_eq_true, if_false, if_true, Nat.add_zero]; omega)

/-- A call of a registered handler keeps the invariant. -/
theorem deliver_inv (ops : value_ops V) {s s' : State V} (name : String) (m : List V)
    (h : Inv ops s) (hs : step ops s (.deliver name m) = some s') : Inv ops s' := by
  obtain ⟨pc, st, se, sp, hd, scb, icb, pcb, fl, out, err, tr⟩ := s
  obtain ⟨h1, h2, h3, h4, h5, h6, h7, h8, h9, h10, h11, h12, h24, h13, h14, h15, h16, h17, h18,
    h19, h20, h21, h22, h23⟩ := h
  simp only at h1 h2 h3 h4 h5 h6 h7 h8 h9 h10 h11 h12 h13 h14 h15 h16 h17 h18 h19 h20 h21 h22 h23 h24
  simp only [step] at hs
  split at hs
  case isFalse => simp at hs
  rename_i hc
  simp only [Bool.and_eq_true, Bool.not_eq_true', decide_eq_true_eq] at hc
  obtain ⟨⟨hrun, hfl⟩, _⟩ := hc
  subst hfl
  obtain ⟨r, hr⟩ := echo_handler_ok ops m
  simp only [Option.some.injEq, run_handler, hr, State.log] at hs
  subst hs
  constructor
  all_goals simp only []
  all_goals try assumption
  all_goals try simp only [countP_concat, Event.is_start_completed, Event.is_invoke_completed,
    Event.is_stop_completed, Event.is_handler_called, Event.is_on_issued, Bool.false_eq_true,
    if_false, if_true, beq_self_eq_true, Nat.add_zero, promise_after_value]
  all_goals try assumption
  all_goals try omega
  all_goals try (simp [List.filter_append, Event.is_issue, h2]; done)
  all_goals try (simp [List.filterMap_append, err_line, h21]; done)
  all_goals try (apply precedes_concat ‹_›; simp only [Event.is_start_issued, Event.is_invoke_issued, Event.is_stop_issued, Event.is_on_issued]; intro hc; cases hc; done)
  all_goals try (apply only_after_concat ‹_›; simp only [Event.is_issue, Event.is_stop_issued]; intro _; rfl)
  all_goals try (intro hp; subst hp; simp [Pc.running] at hrun; done)

theorem step_inv (ops : value_ops V) {s s' : State V} (a : Action V) (h : Inv ops s)
    (hs : step ops s a = some s') : Inv ops s' := by
  cases a with
  | main =>
      simp only [step] at hs
      split at hs
      · simp at hs
      · exact main_step_inv ops h hs
  | fire_start e => exact fire_start_inv ops e h hs
  | fire_invoke v e => exact fire_invoke_inv ops v e h hs
  | fire_stop e => exact fire_stop_inv ops e h hs
  | deliver name m => exact deliver_inv ops name m h hs

theorem init_inv (ops : value_ops V) : Inv ops (init V) := by
  constructor
  all_goals simp [init, Pc.rank, issued_at, main_out, promise_after, precedes_nil,
    only_after_nil, fires_once]

theorem exec_inv (ops : value_ops V) (sched : List (Action V)) :
    ∀ s : State V, Inv ops s → Inv ops (exec ops s sched) := by
  induction sched with
  | nil => intro s h; exact h
  | cons a rest ih =>
      intro s h
      simp only [exec, List.foldl_cons]
      apply ih
      cases hs : step ops s a with
      | none => simpa using h
      | some s' => simpa using step_inv ops a h hs

/-- The invariant holds at the end of every run of `main`. -/
theorem run_inv (ops : value_ops V) (sched : List (Action V)) : Inv ops (run ops sched) :=
  exec_inv ops sched (init V) (init_inv ops)

theorem countP_issue (p : Event V → Bool) (hp : ∀ ev, p ev = true → ev.is_issue = true)
    (t : List (Event V)) : t.countP p = (t.filter Event.is_issue).countP p := by
  rw [List.countP_filter]
  congr 1
  funext ev
  cases h : p ev
  · simp
  · simp [hp ev h]

theorem count_on (ops : value_ops V) {s : State V} (h : Inv ops s) :
    s.trace.countP Event.is_on = if 2 ≤ s.pc.rank then 1 else 0 := by
  rw [countP_issue Event.is_on (by intro ev; cases ev <;> simp [Event.is_on, Event.is_issue]),
    h.issued]
  unfold issued_at
  split <;> split <;> split <;> split <;> first | omega | simp [Event.is_on]

theorem count_start_issued (ops : value_ops V) {s : State V} (h : Inv ops s) :
    s.trace.countP Event.is_start_issued = if 3 ≤ s.pc.rank then 1 else 0 := by
  rw [countP_issue Event.is_start_issued
    (by intro ev; cases ev <;> simp [Event.is_start_issued, Event.is_issue]), h.issued]
  unfold issued_at
  split <;> split <;> split <;> split <;> first | omega | simp [Event.is_start_issued]

theorem count_invoke_issued (ops : value_ops V) {s : State V} (h : Inv ops s) :
    s.trace.countP Event.is_invoke_issued = if 5 ≤ s.pc.rank then 1 else 0 := by
  rw [countP_issue Event.is_invoke_issued
    (by intro ev; cases ev <;> simp [Event.is_invoke_issued, Event.is_issue]), h.issued]
  unfold issued_at
  split <;> split <;> split <;> split <;> first | omega | simp [Event.is_invoke_issued]

theorem count_stop_issued (ops : value_ops V) {s : State V} (h : Inv ops s) :
    s.trace.countP Event.is_stop_issued = if 7 ≤ s.pc.rank then 1 else 0 := by
  rw [countP_issue Event.is_stop_issued
    (by intro ev; cases ev <;> simp [Event.is_stop_issued, Event.is_issue]), h.issued]
  unfold issued_at
  split <;> split <;> split <;> split <;> first | omega | simp [Event.is_stop_issued]

/-! ## The order of the operations (C1) -/

/-- C1: in every run of `main`, whatever exceptions the completion callbacks are
called with, `invoke` is issued only after the completion callback of `start` has
run, `stop` is issued only after the completion callback of `invoke` has run, the
handler for "Echo" is registered before `start` is issued, and each of `on`,
`start`, `invoke` and `stop` is issued at most once. -/
theorem main_sequencing (ops : value_ops V) (sched : List (Action V)) :
    precedes Event.is_start_completed Event.is_invoke_issued (run ops sched).trace ∧
    precedes Event.is_invoke_completed Event.is_stop_issued (run ops sched).trace ∧
    precedes (Event.is_on_issued "Echo") Event.is_start_issued (run ops sched).trace ∧
    (run ops sched).trace.countP Event.is_on ≤ 1 ∧
    (run ops sched).trace.countP Event.is_start_issued ≤ 1 ∧
    (run ops sched).trace.countP Event.is_invoke_issued ≤ 1 ∧
    (run ops sched).trace.countP Event.is_stop_issued ≤ 1 := by
  have h := run_inv ops sched
  refine ⟨h.start_before_invoke, h.invoke_before_stop, h.on_before_start, ?_, ?_, ?_, ?_⟩
  · rw [count_on ops h]; split <;> omega
  · rw [count_start_issued ops h]; split <;> omega
  · rw [count_invoke_issued ops h]; split <;> omega
  · rw [count_stop_issued ops h]; split <;> omega

/-! ## The arguments of `invoke` (C8) -/

/-- C8: in every run, once `main` has reached the invoke step the trace holds the
call `invoke("Echo", [value("Hello world")])`, and every call of `invoke` in the
trace has the method name "Echo" and an argument list of exactly one element,
the value built from the string "Hello world"; its method name is a name under
which `main` has registered a handler before. -/
theorem invoke_arguments (ops : value_ops V) (sched : List (Action V)) :
    (5 ≤ (run ops sched).pc.rank →
      Event.invoke_issued "Echo" [ops.of_string "Hello world"] ∈ (run ops sched).trace) ∧
    ∀ name args, Event.invoke_issued name args ∈ (run ops sched).trace →
      name = "Echo" ∧ args = [ops.of_string "Hello world"] ∧ args.length = 1 ∧
      Event.on_issued name ∈ (run ops sched).trace ∧ name ∈ (run ops sched).handlers := by
  have h := run_inv ops sched
  have hiss := h.issued
  constructor
  · intro h5
    have hm : Event.invoke_issued "Echo" [ops.of_string "Hello world"] ∈
        (run ops sched).trace.filter Event.is_issue := by
      rw [hiss]
      simp [issued_at, h5]
    exact (List.mem_filter.mp hm).1
  · intro name args hmem
    have hm : Event.invoke_issued name args ∈ (run ops sched).trace.filter Event.is_issue :=
      List.mem_filter.mpr ⟨hmem, rfl⟩
    rw [hiss] at hm
    have h5 : 5 ≤ (run ops sched).pc.rank := by
      by_contra hlt
      simp [issued_at, hlt] at hm
    have h2 : 2 ≤ (run ops sched).pc.rank := by omega
    have h3 : 3 ≤ (run ops sched).pc.rank := by omega
    simp only [issued_at, h2, h3, h5, if_true] at hm
    have hna : name = "Echo" ∧ args = [ops.of_string "Hello world"] := by
      split at hm <;> simpa using hm
    obtain ⟨hn, ha⟩ := hna
    subst hn ha
    refine ⟨rfl, rfl, rfl, ?_, ?_⟩
    · have hon : Event.on_issued "Echo" ∈ (run ops sched).trace.filter Event.is_issue := by
        rw [hiss]
        simp [issued_at, h2]
      exact (List.mem_filter.mp hon).1
    · rw [h.handlers]
      simp [h2]

/-- An instance of the theorem above: a run that has reached the invoke step. -/
theorem invoke_arguments_witness :
    (5 ≤ (run string_value_ops sched_to_invoke).pc.rank ∧
      Event.invoke_issued "Echo" ["Hello world"] ∈ (run string_value_ops sched_to_invoke).trace) ∧
    ("Echo" = "Echo" ∧ ["Hello world"] = [string_value_ops.of_string "Hello world"] ∧
      ["Hello world"].length = 1 ∧
      Event.on_issued "Echo" ∈ (run string_value_ops sched_to_invoke).trace ∧
      "Echo" ∈ (run string_value_ops sched_to_invoke).handlers) :=
  have h5 : 5 ≤ (run string_value_ops sched_to_invoke).pc.rank := by decide
  have hm : Event.invoke_issued "Echo" ["Hello world"] ∈
      (run string_value_ops sched_to_invoke).trace :=
    (invoke_arguments string_value_ops sched_to_invoke).1 h5
  ⟨⟨h5, hm⟩, (invoke_arguments string_value_ops sched_to_invoke).2 "Echo" ["Hello world"] hm⟩

/-! ## The completion callbacks and standard error (C4) -/

/-- C4: for every exception argument and in every state, each of the three
completion callbacks appends its own error line to standard error when the
exception pointer is non-null and leaves standard error unchanged when it is
null; so the line is written if and only if the pointer is non-null.  None of them
writes to standard output. -/
theorem callbacks_report_errors (e : exception_ptr) (v : V) (s : State V) :
    (start_callback e s).err =
      (if e.isSome then s.err ++ ["Connection failed to start."] else s.err) ∧
    (invoke_callback v e s).err = (if e.isSome then s.err ++ ["Invoke failed."] else s.err) ∧
    (stop_callback e s).err = (if e.isSome then s.err ++ ["Stop failed."] else s.err) ∧
    ((start_callback e s).err = s.err ++ ["Connection failed to start."] ↔ e ≠ none) ∧
    ((invoke_callback v e s).err = s.err ++ ["Invoke failed."] ↔ e ≠ none) ∧
    ((stop_callback e s).err = s.err ++ ["Stop failed."] ↔ e ≠ none) ∧
    (start_callback e s).out = s.out ∧ (invoke_callback v e s).out = s.out ∧
    (stop_callback e s).out = s.out := by
  cases e <;> cases hst : s.start_task <;> cases hse : s.send_task <;> cases hsp : s.stop_task <;>
    simp [start_callback, invoke_callback, stop_callback, set_value, hst, hse, hsp]

/-- An instance of the theorem above: the callbacks called with a non-null
exception in the initial state. -/
theorem callbacks_report_errors_witness :
    (start_callback (some ⟨true, "refused"⟩) (init String)).err = ["Connection failed to start."] ∧
    (invoke_callback "" (some ⟨true, "refused"⟩) (init String)).err = ["Invoke failed."] ∧
    (stop_callback (some ⟨true, "refused"⟩) (init String)).err = ["Stop failed."] :=
  have h := callbacks_report_errors (some ⟨true, "refused"⟩) "" (init String)
  ⟨h.1, h.2.1, h.2.2.1⟩

/-! ## The handler for "Echo" (C7) -/

/-- C7: for every argument list `m`, the handler registered for "Echo" returns
normally; when `m` is empty it writes nothing and reads no element of `m`; when
`m` is non-empty it reads `m[0]` only and writes the one line "Received: "
followed by the string value of `m[0]`, so for a first element whose string
value is "Hello world" the line is "Received: Hello world"; every index it reads
is within the bounds of `m`. -/
theorem echo_handler_spec (ops : value_ops V) (m : List V) :
    (m = [] → echo_handler ops m = .ok { indexed := [], stdout := [] }) ∧
    (∀ v rest, m = v :: rest →
      echo_handler ops m = .ok { indexed := [0], stdout := ["Received: " ++ ops.as_string v] }) ∧
    (∀ v rest, m = v :: rest → ops.as_string v = "Hello world" →
      echo_handler ops m = .ok { indexed := [0], stdout := ["Received: Hello world"] }) ∧
    (∃ r, echo_handler ops m = .ok r ∧ ∀ i ∈ r.indexed, i < m.length) := by
  refine ⟨?_, ?_, ?_, ?_⟩
  · intro hm
    subst hm
    simp [echo_handler]
  · intro v rest hm
    subst hm
    simp [echo_handler]
  · intro v rest hm hv
    subst hm
    simp [echo_handler, hv]
  · cases m with
    | nil => exact ⟨{ indexed := [], stdout := [] }, by simp [echo_handler], by simp⟩
    | cons v rest => exact ⟨{ indexed := [0], stdout := ["Received: " ++ ops.as_string v] },
        by simp [echo_handler], by simp⟩

/-- An instance of the theorem above: the handler called with the one argument
"Hello world", and called with no argument. -/
theorem echo_handler_spec_witness :
    echo_handler string_value_ops ["Hello world"] =
      .ok { indexed := [0], stdout := ["Received: Hello world"] } ∧
    echo_handler string_value_ops [] = .ok { indexed := [], stdout := [] } :=
  ⟨(echo_handler_spec string_value_ops ["Hello world"]).2.2.1 "Hello world" [] rfl rfl,
   (echo_handler_spec string_value_ops []).1 rfl⟩

/-! ## The websocket factory (C9) -/

/-- C9: for every websocket client `c` given to `create_hub_connection`, the
factory the built connection carries is the lambda that captured `c`; for every
state of the client objects and every configuration `cfg`, that factory, called
with `cfg`, returns the pointer `c` itself, leaves the object `c` configured
with `cfg` and leaves every other client object as it was; called a second time
with `cfg2` it returns `c` again and leaves `c` configured with `cfg2`.  Here
`set_config` of the test client is any function that stores the configuration it
is given, read back by `get_config`. -/
theorem factory_returns_given_client {C Cfg : Type} (set_config : C → Cfg → C)
    (get_config : C → Cfg) (hset : ∀ x cfg, get_config (set_config x cfg) = cfg)
    (c : Nat) (cfg cfg2 : Cfg) (st : Store C) :
    (create_hub_connection set_config c).factory = some (factory_lambda set_config c) ∧
    (factory_lambda set_config c cfg st).1 = c ∧
    get_config ((factory_lambda set_config c cfg st).2 c) = cfg ∧
    (∀ q, q ≠ c → (factory_lambda set_config c cfg st).2 q = st q) ∧
    (factory_lambda set_config c cfg2 (factory_lambda set_config c cfg st).2).1 = c ∧
    get_config
      ((factory_lambda set_config c cfg2 (factory_lambda set_config c cfg st).2).2 c) = cfg2 := by
  refine ⟨rfl, rfl, ?_, ?_, rfl, ?_⟩
  · simp [factory_lambda, call_set_config, hset]
  · intro q hq
    simp [factory_lambda, call_set_config, hq]
  · simp [factory_lambda, call_set_config, hset]

/-- An instance of the theorem above: client object 7, first
configured with 1 and then with 2, in a store whose objects all hold 0. -/
theorem factory_returns_given_client_witness :
    (∀ x cfg : Nat, id (set_number x cfg) = cfg) ∧
    (create_hub_connection set_number 7).factory = some (factory_lambda set_number 7) ∧
    (factory_lambda set_number 7 1 (fun _ => 0)).1 = 7 ∧
    (factory_lambda set_number 7 1 (fun _ => 0)).2 7 = 1 ∧
    (factory_lambda set_number 7 2 (factory_lambda set_number 7 1 (fun _ => 0)).2).1 = 7 ∧
    (factory_lambda set_number 7 2 (factory_lambda set_number 7 1 (fun _ => 0)).2).2 7 = 2 :=
  have h := factory_returns_given_client set_number id (fun _ _ => rfl) 7 1 2 (fun _ => 0)
  ⟨fun _ _ => rfl, h.1, h.2.1, h.2.2.1, h.2.2.2.2.1, h.2.2.2.2.2⟩

/-! ## Runs to the end (C5, C6) -/

/-- No fulfilment has failed in a state whose callbacks were called at most once. -/
theorem no_fault_of_once (ops : value_ops V) {s : State V} (h : Inv ops s)
    (honce : fires_once s.trace) : s.fault = false := by
  cases hf : s.fault
  · rfl
  · exact absurd honce (h.fault hf)

/-- A trace without failed completions leaves standard error empty. -/
theorem filterMap_err_line_nil (t : List (Event V)) (h : t.countP Event.is_failure = 0) :
    t.filterMap err_line = [] := by
  induction t with
  | nil => rfl
  | cons ev rest ih =>
      rw [List.countP_cons] at h
      have h1 : rest.countP Event.is_failure = 0 := by omega
      have h2 : ev.is_failure = false := by
        cases hev : ev.is_failure
        · rfl
        · simp [hev] at h
      rw [List.filterMap_cons, ih h1]
      cases ev with
      | start_completed e => cases e <;> simp_all [Event.is_failure, err_line]
      | invoke_completed v e => cases e <;> simp_all [Event.is_failure, err_line]
      | stop_completed e => cases e <;> simp_all [Event.is_failure, err_line]
      | _ => simp [err_line]

/-- One turn of the main thread in a state of a run, no fulfilment having failed:
the thread never goes back, it advances by one statement unless it waits on a
promise whose callback has not been called or `main` is over, and it adds only
issued operations to the trace. -/
theorem after_main (ops : value_ops V) {s : State V} (h : Inv ops s) (hf : s.fault = false) :
    (exec ops s [.main]).fault = false ∧
    s.pc.rank ≤ (exec ops s [.main]).pc.rank ∧
    (s.pc.rank < 8 →
      (s.pc.rank = 3 → 0 < s.trace.countP Event.is_start_completed) →
      (s.pc.rank = 5 → 0 < s.trace.countP Event.is_invoke_completed) →
      (s.pc.rank = 7 → 0 < s.trace.countP Event.is_stop_completed) →
      (exec ops s [.main]).pc.rank = s.pc.rank + 1) ∧
    (∀ p : Event V → Bool, (∀ ev, ev.is_issue = true → p ev = false) →
      (exec ops s [.main]).trace.countP p = s.trace.countP p) := by
  have hst := h.start_task
  have hse := h.send_task
  have hsp := h.stop_task
  obtain ⟨pc, st, se, sp, hd, scb, icb, pcb, fl, out, err, tr⟩ := s
  simp only at hst hse hsp hf
  subst hf
  cases pc
  case wait_start =>
    rcases Nat.eq_zero_or_pos (tr.countP Event.is_start_completed) with h0 | h0
    · have hv : st = .unset := by rw [hst]; simp [promise_after, h0]
      subst hv
      simp [exec, step, main_step, Pc.rank, h0]
    · have hv : st = .hasValue := by rw [hst]; simp [promise_after, h0]
      subst hv
      simp [exec, step, main_step, Pc.rank]
  case wait_send =>
    rcases Nat.eq_zero_or_pos (tr.countP Event.is_invoke_completed) with h0 | h0
    · have hv : se = .unset := by rw [hse]; simp [promise_after, h0]
      subst hv
      simp [exec, step, main_step, Pc.rank, h0]
    · have hv : se = .hasValue := by rw [hse]; simp [promise_after, h0]
      subst hv
      simp [exec, step, main_step, Pc.rank]
  case wait_stop =>
    rcases Nat.eq_zero_or_pos (tr.countP Event.is_stop_completed) with h0 | h0
    · have hv : sp = .unset := by rw [hsp]; simp [promise_after, h0]
      subst hv
      simp [exec, step, main_step, Pc.rank, h0]
    · have hv : sp = .hasValue := by rw [hsp]; simp [promise_after, h0]
      subst hv
      simp [exec, step, main_step, Pc.rank]
  all_goals simp [exec, step, main_step, State.log, Pc.rank, countP_concat]
  all_goals (intro p hp; exact hp _ rfl)


/-- A run under two schedules in a row. -/
theorem exec_append (ops : value_ops V) (s : State V) (a b : List (Action V)) :
    exec ops s (a ++ b) = exec ops (exec ops s a) b := by
  simp [exec, List.foldl_append]

/-- The last position of `main` in a run is the return of 0. -/
theorem rank_returned {pc : Pc} (h8 : pc.rank = 8) (hok : ∀ c, pc = .returned c → c = 0) :
    pc = .returned 0 := by
  cases pc <;> simp [Pc.rank] at h8
  rename_i c
  rw [hok c rfl]

/-- The main thread is never stuck in a run: three turns bring it past the call of
`start`; once a completion callback has been called, two turns bring it past the
next call, and one turn after the callback of `stop` it has returned 0. -/
theorem main_progress (ops : value_ops V) {s : State V} (h : Inv ops s) (hf : s.fault = false) :
    3 ≤ (exec ops s [.main, .main, .main]).pc.rank ∧
    (0 < s.trace.countP Event.is_start_completed →
      5 ≤ (exec ops s [.main, .main]).pc.rank) ∧
    (0 < s.trace.countP Event.is_invoke_completed →
      7 ≤ (exec ops s [.main, .main]).pc.rank) ∧
    (0 < s.trace.countP Event.is_stop_completed → (exec ops s [.main]).pc = .returned 0) := by
  have h1 := exec_inv ops [.main] s h
  obtain ⟨f1, m1, a1, c1⟩ := after_main ops h hf
  have h2 := exec_inv ops [.main] _ h1
  obtain ⟨f2, m2, a2, c2⟩ := after_main ops h1 f1
  obtain ⟨_, m3, a3, _⟩ := after_main ops h2 f2
  have e2 : exec ops s [.main, .main] = exec ops (exec ops s [.main]) [.main] :=
    exec_append ops s [.main] [.main]
  have e3 : exec ops s [.main, .main, .main] =
      exec ops (exec ops (exec ops s [.main]) [.main]) [.main] := by
    rw [← e2]; exact exec_append ops s [.main, .main] [.main]
  have cs := c1 Event.is_start_completed
    (by intro ev; cases ev <;> simp [Event.is_issue, Event.is_start_completed])
  have ci := c1 Event.is_invoke_completed
    (by intro ev; cases ev <;> simp [Event.is_issue, Event.is_invoke_completed])
  have hr := h.pc_ok.1
  have hr1 := h1.pc_ok.1
  have d1 := h.start_done
  have d2 := h.invoke_done
  have d3 := h.stop_done
  have p1 := h.past_start
  have p2 := h.past_send
  refine ⟨?_, ?_, ?_, ?_⟩
  · rw [e3]; omega
  · intro hs; rw [e2]; omega
  · intro hs; rw [e2]; omega
  · intro hs
    exact rank_returned (by omega) h1.pc_ok.2

/-- C5: in every run in which each completion callback has been called at most
once and the callback of `start` has not been called with a non-null exception,
the main thread goes all the way: three turns of the main thread issue `start`;
once the callback of `start` has been called, two turns issue `invoke`; once the
callback of `invoke` has been called, two turns issue `stop`; and once all three
callbacks have been called, after one turn `main` has returned 0 and
"Connection stopped successfully." is the last line on standard output,
whatever exception the callbacks of `invoke` and `stop` were called with. -/
theorem exit_code_zero_after_start (ops : value_ops V) (sched : List (Action V))
    (honce : fires_once (run ops sched).trace)
    (_hstart_ok : (run ops sched).trace.countP Event.is_start_failure = 0) :
    (exec ops (run ops sched) [.main, .main, .main]).trace.countP Event.is_start_issued = 1 ∧
    (0 < (run ops sched).trace.countP Event.is_start_completed →
      (exec ops (run ops sched) [.main, .main]).trace.countP Event.is_invoke_issued = 1) ∧
    (0 < (run ops sched).trace.countP Event.is_invoke_completed →
      (exec ops (run ops sched) [.main, .main]).trace.countP Event.is_stop_issued = 1) ∧
    (0 < (run ops sched).trace.countP Event.is_start_completed →
      0 < (run ops sched).trace.countP Event.is_invoke_completed →
      0 < (run ops sched).trace.countP Event.is_stop_completed →
      (exec ops (run ops sched) [.main]).pc = .returned 0 ∧
      "Connection stopped successfully." ∈ (exec ops (run ops sched) [.main]).out ∧
      (exec ops (run ops sched) [.main]).out.getLast? =
        some "Connection stopped successfully.") := by
  have h := run_inv ops sched
  have hf := no_fault_of_once ops h honce
  obtain ⟨pa, pb, pc, pd⟩ := main_progress ops h hf
  refine ⟨?_, ?_, ?_, ?_⟩
  · rw [count_start_issued ops (exec_inv ops _ _ h)]
    simp [pa]
  · intro hs
    have h5 := pb hs
    rw [count_invoke_issued ops (exec_inv ops _ _ h)]
    simp [h5]
  · intro hi
    have h7 := pc hi
    rw [count_stop_issued ops (exec_inv ops _ _ h)]
    simp [h7]
  · intro _ _ hp
    have hpc := pd hp
    have hlast := (exec_inv ops [.main] _ h).out_last hpc
    exact ⟨hpc, List.mem_of_mem_getLast? hlast, hlast⟩

/-- An instance of the theorem above: the run in which `invoke` and `stop` both
fail, up to the call of the callback of `stop`; the main thread still waits on
`stop_task` and its next turn returns 0. -/
theorem exit_code_zero_after_start_witness :
    fires_once (run string_value_ops sched_stop_just_failed).trace ∧
    (run string_value_ops sched_stop_just_failed).trace.countP Event.is_start_failure = 0 ∧
    (run string_value_ops sched_stop_just_failed).trace.countP Event.is_invoke_failure = 1 ∧
    (run string_value_ops sched_stop_just_failed).pc = .wait_stop ∧
    (exec string_value_ops (run string_value_ops sched_stop_just_failed) [.main]).pc =
      .returned 0 ∧
    "Connection stopped successfully." ∈
      (exec string_value_ops (run string_value_ops sched_stop_just_failed) [.main]).out ∧
    (exec string_value_ops (run string_value_ops sched_stop_just_failed) [.main]).out.getLast? =
      some "Connection stopped successfully." :=
  ⟨by decide, by decide, by decide, by decide,
    (exit_code_zero_after_start string_value_ops sched_stop_just_failed (by decide)
      (by decide)).2.2.2 (by decide) (by decide) (by decide)⟩

/-- C6: in every run in which each completion callback has been called at most
once, always with a null exception, and no handler has been called, the main
thread goes all the way: three turns of the main thread issue `start`; once the
callback of `start` has been called, two turns issue `invoke`; once the callback
of `invoke` has been called, two turns issue `stop`; and once `start`, `invoke`
and `stop` have all completed, after one turn `main` has returned 0, standard
error is empty and standard output holds exactly the two lines
"Connection established." and "Connection stopped successfully.", in this
order. -/
theorem clean_run_output (ops : value_ops V) (sched : List (Action V))
    (honce : fires_once (run ops sched).trace)
    (hnull : (run ops sched).trace.countP Event.is_failure = 0)
    (hquiet : (run ops sched).trace.countP Event.is_handler_called = 0) :
    (exec ops (run ops sched) [.main, .main, .main]).trace.countP Event.is_start_issued = 1 ∧
    (0 < (run ops sched).trace.countP Event.is_start_completed →
      (exec ops (run ops sched) [.main, .main]).trace.countP Event.is_invoke_issued = 1) ∧
    (0 < (run ops sched).trace.countP Event.is_invoke_completed →
      (exec ops (run ops sched) [.main, .main]).trace.countP Event.is_stop_issued = 1) ∧
    (0 < (run ops sched).trace.countP Event.is_start_completed →
      0 < (run ops sched).trace.countP Event.is_invoke_completed →
      0 < (run ops sched).trace.countP Event.is_stop_completed →
      (exec ops (run ops sched) [.main]).pc = .returned 0 ∧
      (exec ops (run ops sched) [.main]).err = [] ∧
      (exec ops (run ops sched) [.main]).out =
        ["Connection established.", "Connection stopped successfully."]) := by
  have h := run_inv ops sched
  have hf := no_fault_of_once ops h honce
  obtain ⟨pa, pb, pc, pd⟩ := main_progress ops h hf
  refine ⟨?_, ?_, ?_, ?_⟩
  · rw [count_start_issued ops (exec_inv ops _ _ h)]
    simp [pa]
  · intro hs
    have h5 := pb hs
    rw [count_invoke_issued ops (exec_inv ops _ _ h)]
    simp [h5]
  · intro hi
    have h7 := pc hi
    rw [count_stop_issued ops (exec_inv ops _ _ h)]
    simp [h7]
  · intro _ _ hp
    have hpc := pd hp
    have h1 := exec_inv ops [.main] _ h
    have hc := (after_main ops h hf).2.2.2
    have hn : (exec ops (run ops sched) [.main]).trace.countP Event.is_failure = 0 := by
      rw [hc Event.is_failure (by intro ev; cases ev <;> simp [Event.is_issue, Event.is_failure])]
      exact hnull
    have hq : (exec ops (run ops sched) [.main]).trace.countP Event.is_handler_called = 0 := by
      rw [hc Event.is_handler_called
        (by intro ev; cases ev <;> simp [Event.is_issue, Event.is_handler_called])]
      exact hquiet
    refine ⟨hpc, ?_, ?_⟩
    · rw [h1.err]
      exact filterMap_err_line_nil _ hn
    · rw [h1.out_quiet hq, hpc]
      rfl

/-- An instance of the theorem above: the clean run up to the call of the
callback of `stop`, with the invoke result "Hello world"; the main thread still
waits on `stop_task`, has printed one line, and its next turn prints the second
line and returns 0. -/
theorem clean_run_output_witness :
    fires_once (run string_value_ops sched_stop_just_completed).trace ∧
    (run string_value_ops sched_stop_just_completed).trace.countP Event.is_failure = 0 ∧
    (run string_value_ops sched_stop_just_completed).trace.countP Event.is_handler_called = 0 ∧
    (run string_value_ops sched_stop_just_completed).pc = .wait_stop ∧
    (run string_value_ops sched_stop_just_completed).out = ["Connection established."] ∧
    (exec string_value_ops (run string_value_ops sched_stop_just_completed) [.main]).pc =
      .returned 0 ∧
    (exec string_value_ops (run string_value_ops sched_stop_just_completed) [.main]).err = [] ∧
    (exec string_value_ops (run string_value_ops sched_stop_just_completed) [.main]).out =
      ["Connection established.", "Connection stopped successfully."] :=
  ⟨by decide, by decide, by decide, by decide, by decide,
    (clean_run_output string_value_ops sched_stop_just_completed (by decide) (by decide)
      (by decide)).2.2.2 (by decide) (by decide) (by decide)⟩

/-! ## The promises (C10) -/

/-- C10: a promise is a one-shot cell.  Each completion callback, called with any
exception argument, fulfils its own promise with a value when the promise is
still unset, raises the error of a second fulfilment when it is not, and leaves
the two other promises as they were.  Hence in every run in which each
completion callback has been called at most once, no fulfilment has failed, no
promise holds an exception, a promise holds a value exactly when its callback
has been called, every promise `main` has waited on holds a value, and `main`
has neither been left by an exception nor returned 1. -/
theorem promises_fulfilled_once (ops : value_ops V) (sched : List (Action V))
    (e : exception_ptr) (v : V) (s : State V) :
    ((s.start_task = .unset →
        (start_callback e s).start_task = .hasValue ∧ (start_callback e s).fault = s.fault) ∧
      (s.start_task ≠ .unset →
        (start_callback e s).start_task = s.start_task ∧ (start_callback e s).fault = true) ∧
      (start_callback e s).send_task = s.send_task ∧
      (start_callback e s).stop_task = s.stop_task) ∧
    ((s.send_task = .unset →
        (invoke_callback v e s).send_task = .hasValue ∧ (invoke_callback v e s).fault = s.fault) ∧
      (s.send_task ≠ .unset →
        (invoke_callback v e s).send_task = s.send_task ∧ (invoke_callback v e s).fault = true) ∧
      (invoke_callback v e s).start_task = s.start_task ∧
      (invoke_callback v e s).stop_task = s.stop_task) ∧
    ((s.stop_task = .unset →
        (stop_callback e s).stop_task = .hasValue ∧ (stop_callback e s).fault = s.fault) ∧
      (s.stop_task ≠ .unset →
        (stop_callback e s).stop_task = s.stop_task ∧ (stop_callback e s).fault = true) ∧
      (stop_callback e s).start_task = s.start_task ∧
      (stop_callback e s).send_task = s.send_task) ∧
    (fires_once (run ops sched).trace →
      (run ops sched).fault = false ∧
      (∀ x, (run ops sched).start_task ≠ .hasException x ∧
        (run ops sched).send_task ≠ .hasException x ∧
        (run ops sched).stop_task ≠ .hasException x) ∧
      ((run ops sched).start_task = .hasValue ↔
        (run ops sched).trace.countP Event.is_start_completed = 1) ∧
      ((run ops sched).send_task = .hasValue ↔
        (run ops sched).trace.countP Event.is_invoke_completed = 1) ∧
      ((run ops sched).stop_task = .hasValue ↔
        (run ops sched).trace.countP Event.is_stop_completed = 1) ∧
      (4 ≤ (run ops sched).pc.rank → (run ops sched).start_task = .hasValue) ∧
      (6 ≤ (run ops sched).pc.rank → (run ops sched).send_task = .hasValue) ∧
      (8 ≤ (run ops sched).pc.rank → (run ops sched).stop_task = .hasValue) ∧
      (run ops sched).pc ≠ .terminated ∧ (run ops sched).pc ≠ .returned 1) := by
  refine ⟨?_, ?_, ?_, ?_⟩
  · cases e <;> cases hst : s.start_task <;> simp [start_callback, set_value, hst]
  · cases e <;> cases hse : s.send_task <;> simp [invoke_callback, set_value, hse]
  · cases e <;> cases hsp : s.stop_task <;> simp [stop_callback, set_value, hsp]
  · intro honce
    have h := run_inv ops sched
    have hst := h.start_task
    have hse := h.send_task
    have hsp := h.stop_task
    have h4 := h.past_start
    have h6 := h.past_send
    have h8 := h.past_stop
    have hok := h.pc_ok
    obtain ⟨o1, o2, o3⟩ := honce
    refine ⟨no_fault_of_once ops h ⟨o1, o2, o3⟩, ?_, ?_, ?_, ?_, ?_, ?_, ?_, ?_, ?_⟩
    · intro x
      rw [hst, hse, hsp]
      exact ⟨fun hx => promise_after_exc hx.symm, fun hx => promise_after_exc hx.symm,
        fun hx => promise_after_exc hx.symm⟩
    · rw [hst, eq_comm, promise_after_value]; omega
    · rw [hse, eq_comm, promise_after_value]; omega
    · rw [hsp, eq_comm, promise_after_value]; omega
    · intro hr; rw [hst, eq_comm, promise_after_value]; exact h4 hr
    · intro hr; rw [hse, eq_comm, promise_after_value]; exact h6 hr
    · intro hr; rw [hsp, eq_comm, promise_after_value]; exact h8 hr
    · intro hpc
      rw [hpc] at hok
      simp [Pc.rank] at hok
    · intro hpc
      have := hok.2 1 hpc
      omega

/-- An instance of the theorem above: the callback of `start` called with
an exception in the initial state and called again in the state it leaves, and
the promises at the end of the run of `sched_invoke_stop_fail`. -/
theorem promises_fulfilled_once_witness :
    ((start_callback (some refused) (init String)).start_task = .hasValue ∧
      (start_callback (some refused) (init String)).fault = false) ∧
    (start_callback none (start_callback (some refused) (init String))).fault = true ∧
    fires_once (run string_value_ops sched_invoke_stop_fail).trace ∧
    (run string_value_ops sched_invoke_stop_fail).fault = false ∧
    (run string_value_ops sched_invoke_stop_fail).stop_task = .hasValue :=
  have h1 := promises_fulfilled_once string_value_ops sched_invoke_stop_fail (some refused) ""
    (init String)
  have h2 := promises_fulfilled_once string_value_ops sched_invoke_stop_fail none ""
    (start_callback (some refused) (init String))
  have honce : fires_once (run string_value_ops sched_invoke_stop_fail).trace := by decide
  ⟨h1.1.1 rfl, (h2.1.2.1 (by decide)).2, honce, (h1.2.2.2 honce).1,
    (h1.2.2.2 honce).2.2.2.2.2.2.2.1 (by decide)⟩

/-! ## After a failure (C2, C3) -/

/-- C2: the run in which the completion callback of `start` is called with a
non-null exception.  The callback reports the failure on standard error and
fulfils `start_task` with a value, so `main` prints "Connection established.",
goes on to issue `invoke` and `stop`, and returns 0. -/
theorem start_failure_exit_code :
    (run string_value_ops sched_start_fails).trace =
      [.on_issued "Echo", .start_issued, .start_completed (some refused),
       .invoke_issued "Echo" ["Hello world"], .invoke_completed "" none,
       .stop_issued, .stop_completed none] ∧
    (run string_value_ops sched_start_fails).pc = .returned 0 ∧
    (run string_value_ops sched_start_fails).err = ["Connection failed to start."] ∧
    (run string_value_ops sched_start_fails).out =
      ["Connection established.", "Connection stopped successfully."] := by
  decide

/-- C3, as stated, fails: in the run of `sched_invoke_fails` the completion
callback of `invoke` is called with a non-null exception and `stop` is issued
after it, so it is not the case that no `invoke` or `stop` follows a failure. -/
theorem stop_issued_after_invoke_failure :
    (run string_value_ops sched_invoke_fails).trace =
      [.on_issued "Echo", .start_issued, .start_completed none,
       .invoke_issued "Echo" ["Hello world"], .invoke_completed "" (some refused),
       .stop_issued] ∧
    ¬ only_after (fun ev => ev.is_start_failure || ev.is_invoke_failure)
      (fun ev => !(ev.is_invoke_issued || ev.is_stop_issued))
      (run string_value_ops sched_invoke_fails).trace := by
  have ht : (run string_value_ops sched_invoke_fails).trace =
      [.on_issued "Echo", .start_issued, .start_completed none,
       .invoke_issued "Echo" ["Hello world"]] ++
      .invoke_completed "" (some refused) :: [.stop_issued] := by decide
  refine ⟨ht, fun h => ?_⟩
  have hbad := h _ _ _ ht rfl Event.stop_issued (by simp)
  simp [Event.is_invoke_issued, Event.is_stop_issued] at hbad

/-- Once the callback of `invoke` has been called, two more steps of the main
thread bring it past the call of `stop`. -/
theorem two_steps_issue_stop (ops : value_ops V) {s : State V} (h : Inv ops s)
    (hf : s.fault = false) (hi : 0 < s.trace.countP Event.is_invoke_completed) :
    7 ≤ (exec ops s [.main, .main]).pc.rank := by
  have h5 := h.invoke_done hi
  have hse := h.send_task
  have hr := h.pc_ok.1
  obtain ⟨pc, st, se, sp, hd, scb, icb, pcb, fl, out, err, tr⟩ := s
  simp only at h5 hse hr hf hi
  subst hf
  have hv : se = .hasValue := by rw [hse]; simp [promise_after, hi]
  subst hv
  cases pc <;> simp [Pc.rank] at h5 hr
  all_goals cases sp
  all_goals simp [exec, step, main_step, State.log, Pc.rank]

/-- C3, amended: in every run in which each completion callback is called at most
once and the callback of `start` is not called with a non-null exception, every
operation issued after a call of the completion callback of `invoke` with a
non-null exception is `stop`: there is no further `on`, `start` or `invoke`;
`stop` is issued at most once in the run; and when the invoke callback has been
called with a non-null exception, `stop` has been issued exactly once by the
time the main thread has taken two more steps. -/
theorem no_retry_after_invoke_failure (ops : value_ops V) (sched : List (Action V))
    (_hstart_ok : (run ops sched).trace.countP Event.is_start_failure = 0)
    (honce : fires_once (run ops sched).trace) :
    only_after Event.is_invoke_failure (fun ev => !ev.is_issue || ev.is_stop_issued)
      (run ops sched).trace ∧
    (run ops sched).trace.countP Event.is_stop_issued ≤ 1 ∧
    (0 < (run ops sched).trace.countP Event.is_invoke_failure →
      (exec ops (run ops sched) [.main, .main]).trace.countP Event.is_stop_issued = 1) := by
  have h := run_inv ops sched
  refine ⟨?_, ?_, ?_⟩
  · intro pre x post ht hx
    apply h.after_invoke pre x post ht
    cases x <;> simp_all [Event.is_invoke_failure, Event.is_invoke_completed]
  · rw [count_stop_issued ops h]; split <;> omega
  · intro hfail
    have hi : 0 < (run ops sched).trace.countP Event.is_invoke_completed := by
      refine Nat.lt_of_lt_of_le hfail (List.countP_mono_left ?_)
      intro x _ hx
      cases x <;> simp_all [Event.is_invoke_failure, Event.is_invoke_completed]
    have hf := no_fault_of_once ops h honce
    have h7 := two_steps_issue_stop ops h hf hi
    rw [count_stop_issued ops (exec_inv ops _ _ h)]
    simp [h7]

/-- An instance of the theorem above: the run up to the failure of
`invoke`, after which two steps of the main thread issue `stop`. -/
theorem no_retry_after_invoke_failure_witness :
    (run string_value_ops sched_invoke_just_failed).trace.countP Event.is_start_failure = 0 ∧
    fires_once (run string_value_ops sched_invoke_just_failed).trace ∧
    0 < (run string_value_ops sched_invoke_just_failed).trace.countP Event.is_invoke_failure ∧
    (run string_value_ops sched_invoke_just_failed).trace.countP Event.is_stop_issued = 0 ∧
    (exec string_value_ops (run string_value_ops sched_invoke_just_failed)
      [.main, .main]).trace.countP Event.is_stop_issued = 1 :=
  have hs : (run string_value_ops sched_invoke_just_failed).trace.countP
      Event.is_start_failure = 0 := by decide
  have honce : fires_once (run string_value_ops sched_invoke_just_failed).trace := by decide
  have hfail : 0 < (run string_value_ops sched_invoke_just_failed).trace.countP
      Event.is_invoke_failure := by decide
  ⟨hs, honce, hfail, by decide,
    (no_retry_after_invoke_failure string_value_ops sched_invoke_just_failed hs honce).2.2 hfail⟩

end Chat
